import Mathlib

/-!
Verification of `lecha_albums_bot.py`, a Telegram bot that stores music
album records per user, collects metadata over a multi-step conversation
(link → genres → year → country), renders an announcement caption, and
supports a single-field edit sub-flow.

The embedding is shallow: each Python handler becomes a pure Lean function
on an explicit state.  Python strings are Lean `String`s; the string
primitives the source uses (`str.split(', ')`, `str.join`, `str.replace`,
slicing, `str.isdigit`, `re.sub('[^A-Za-z0-9]+', '', ·)`) are translated
into structurally recursive functions over the underlying character lists,
mirroring Python's semantics.  Fallible Python code (KeyError on a missing
session key, IndexError on a bad record index, TypeError when iterating a
missing `genres` value) is modelled with `Option`.  External collaborators
(the Telegram transport, the odesli HTTP lookup, image fetching) are
modelled as explicit inputs: the odesli response becomes a `LookupResult`
argument, URL syntax validation (`validators.url`) becomes a `Bool`
argument, and message sending is elided.
-/

namespace LechaAlbumsBot

/-! Python string primitives, translated at the character level. -/

/-- Python `str.split(', ')` on the character list: leftmost,
non-overlapping splitting on the two-character separator `", "`.
`split` of the empty string yields `[[]]`, as in Python. -/
def splitCommaSpace : List Char → List (List Char)
  | [] => [[]]
  | [c] => [[c]]
  | c1 :: c2 :: rest =>
    if c1 = ',' ∧ c2 = ' ' then
      [] :: splitCommaSpace rest
    else
      match splitCommaSpace (c2 :: rest) with
      | [] => [[c1]]
      | t :: ts => (c1 :: t) :: ts

/-- Python `sep.join(xs)` on character lists. -/
def joinSeq (sep : List Char) : List (List Char) → List Char
  | [] => []
  | [a] => a
  | a :: b :: rest => a ++ sep ++ joinSeq sep (b :: rest)

/-- Whether a character list contains the two-character sequence `", "`
(Python `', ' in s`). -/
def hasCommaSpace : List Char → Bool
  | [] => false
  | [_] => false
  | c1 :: c2 :: rest => (c1 = ',' && c2 = ' ') || hasCommaSpace (c2 :: rest)

/-- Python `text.split(', ')`, as used by `get_genres` and `capture_edits`. -/
def pySplitCommaSpace (s : String) : List String :=
  (splitCommaSpace s.data).map String.mk

/-- Joining a genre list with the literal separator `", "`
(Python `', '.join(genres)`): the inverse direction of genre splitting. -/
def joinCommaSpace (gs : List String) : String :=
  String.mk (joinSeq [',', ' '] (gs.map String.data))

/-- Whether a Python string contains the substring `", "`. -/
def hasCommaSpaceStr (s : String) : Bool :=
  hasCommaSpace s.data

/-- Python `sep.join(xs)` at the `String` level. -/
def pyJoin (sep : String) (xs : List String) : String :=
  String.mk (joinSeq sep.data (xs.map String.data))

/-- Python `s.isdigit()`: non-empty and every character a digit. -/
def pyIsdigit (s : String) : Bool :=
  !s.data.isEmpty && s.data.all Char.isDigit

/-- Python `s.replace(" ", "")`: removing every space character. -/
def removeSpaces (s : String) : String :=
  String.mk (s.data.filter fun c => c ≠ ' ')

/-- Python `s[:3]`: the first three characters. -/
def pySlice3 (s : String) : String :=
  String.mk (s.data.take 3)

/-- Python `re.sub('[^A-Za-z0-9]+', '', s)`: dropping every character that
is not ASCII alphanumeric. -/
def stripNonAlnum (s : String) : String :=
  String.mk (s.data.filter fun c => c.isAlphanum)

/-- The characters of `s` before the first occurrence of `sep`
(Python `s.split(sep)[0]` for a one-character separator). -/
def takeUntilChar (sep : Char) : List Char → List Char
  | [] => []
  | c :: cs => if c = sep then [] else c :: takeUntilChar sep cs

/-- Python `str(x)` for a value that renders in an f-string as either the
string itself or `None`. -/
def pyOptStr : Option String → String
  | none => "None"
  | some s => s

/-! Data model. -/

/-- The `tag` field of a record: an integer (the list length at creation
time, `get_link`) or raw message text (after an `edit_tag` edit,
`capture_edits`). -/
inductive TagVal where
  | num (n : Nat)
  | str (s : String)
deriving DecidableEq, Repr

/-- How a `tag` value renders inside an f-string. -/
def TagVal.render : TagVal → String
  | .num n => toString n
  | .str s => s

/-- The odesli metadata object for one platform entry
(`data['entitiesByUniqueId'][k]`): the fields the bot reads. -/
structure SongData where
  title : String
  artistName : String
  thumbnailUrl : String
deriving DecidableEq, Repr

/-- One release record, the per-user dictionary appended by `get_link`.
At creation only `url`, `data` and `tag` are present; `genres`, `year` and
`country` keys are added by the later conversation steps, so they are
`Option`s, `none` meaning the key is absent. -/
structure Record where
  url : Option String
  data : SongData
  tag : TagVal
  genres : Option (List String) := none
  year : Option String := none
  country : Option String := none
deriving DecidableEq, Repr

/-- The conversation states: `LINK, GENRES, YEAR, COUNTRY, CAPTURE_EDITS
= range(5)` plus `ConversationHandler.END`. -/
inductive ConvState where
  | LINK
  | GENRES
  | YEAR
  | COUNTRY
  | CAPTURE_EDITS
  | END
deriving DecidableEq, Repr

/-- The six `edit_state` values set by `process_edits`. -/
inductive EditField where
  | edit_tag
  | edit_title
  | edit_band
  | edit_year
  | edit_county
  | edit_genres
deriving DecidableEq, Repr

/-- The per-chat transient session (`context.user_data`): the pinned record
tag and, during edits, the targeted field.  `none` models an absent key
(reading it raises `KeyError` in Python). -/
structure Session where
  tag : Option Nat := none
  edit_state : Option EditField := none
deriving DecidableEq, Repr

/-! Link Resolver (`get_song_links`). -/

/-- The outcome of the outbound odesli HTTP call, an external collaborator:
either a non-success status, or a JSON body with `pageUrl` and the
`entitiesByUniqueId` mapping (association list of unique-id keys to
per-platform metadata). -/
inductive LookupResult where
  | httpError
  | success (pageUrl : String) (entities : List (String × SongData))
deriving DecidableEq, Repr

/-- Python `k.split(':')[0].split('_')[0]`: the platform tag of an
`entitiesByUniqueId` key. -/
def platformOf (k : String) : String :=
  String.mk (takeUntilChar '_' (takeUntilChar ':' k.data))

/-- The scan in `get_song_links`: the first entry whose key's platform tag
is `'ITUNES'`. -/
def findItunesEntry : List (String × SongData) → Option SongData
  | [] => none
  | (k, d) :: rest =>
    if platformOf k = "ITUNES" then some d else findItunesEntry rest

/-- Model of `get_song_links` minus the outbound call itself: post-processing of the
odesli response.  On a non-success status it returns `(None, None)`;
otherwise it returns the body's `pageUrl` and the first `ITUNES` entry
(`None` if there is none). -/
def get_song_links : LookupResult → Option String × Option SongData
  | .httpError => (none, none)
  | .success pageUrl entities => (some pageUrl, findItunesEntry entities)

/-! Presentation (`generate_text`). -/

/-- The placeholder metadata object `get_link` falls back to when
`get_song_links` returns `(None, None)`. -/
def placeholderData : SongData where
  title := "Обновите название"
  artistName := "Обновите исполнителя"
  thumbnailUrl := "https://www.generationsforpeace.org/wp-content/uploads/2018/03/empty.jpg"

/-- Handler `generate_text`: the announcement caption.  Python's
`" • ".join(data.get('genres'))` raises `TypeError` when the `genres` key
is absent (`.get` returns `None`), so the result is an `Option`, `none`
modelling the raised error.  A missing `year` renders as `''` (explicit
default); missing `country`/`url` render as `None` (no default). -/
def generate_text (r : Record) : Option String :=
  match r.genres with
  | none => none
  | some gs => some
      ("<b>#" ++ r.tag.render ++ "</b>\n" ++
       "<b>Artist:</b> " ++ r.data.artistName ++ "\n" ++
       "<b>Album:</b> " ++ r.data.title ++ "\n" ++
       "<b>Year:</b> " ++ r.year.getD "" ++ "\n" ++
       "<b>Genre:</b> " ++ pyJoin " • " gs ++ "\n" ++
       "<b>Country:</b> " ++ pyOptStr r.country ++ "\n" ++
       "<b>Link:</b> " ++ pyOptStr r.url ++ "\n\n" ++
       "<i>#" ++ removeSpaces r.data.artistName ++
       " #" ++ (pySlice3 (r.year.getD "") ++ "0s") ++
       " #" ++ pyOptStr r.country ++ " " ++
       pyJoin " " (gs.map fun i => "#" ++ stripNonAlnum i) ++
       "</i>\n    ")

/-! Conversation Engine.

Each handler acts on the current user's record list `DATA[str(user.id)]`
(passed explicitly) and the session, and returns the next conversation
state.  The `store_data(DATA, CONFIG_FILENAME)` persistence call after each
mutation is modelled separately by the Record Store below; message sending
is external output and elided. -/

/-- Handler `new_object` (`/new`): prompt for a link and enter `LINK`. -/
def new_object : ConvState := ConvState.LINK

/-- Handler `get_link`: `valid` is the verdict of the external `validators.url`
check on `text`; `lookup` is the odesli response for `text`.  An invalid
URL self-loops; a `(None, None)` resolution falls back to the placeholder
record with the user-entered text as URL; a resolution with no `ITUNES`
entry (`data is None` while `url` is not) is rejected with a self-loop;
otherwise a record is appended whose tag is the pre-insertion list length,
and that tag is pinned into the session. -/
def get_link (records : List Record) (sess : Session) (text : String)
    (valid : Bool) (lookup : LookupResult) :
    ConvState × List Record × Session :=
  if valid = false then (.LINK, records, sess)
  else
    let res := get_song_links lookup
    let fb :=
      if res.1.isNone && res.2.isNone then (some text, some placeholderData)
      else res
    match fb.2 with
    | none => (.LINK, records, sess)
    | some d =>
      let tag := records.length
      (.GENRES,
       records ++ [{ url := fb.1, data := d, tag := .num tag }],
       { sess with tag := some tag })

/-- Handler `get_genres`: split the input on `', '`, store it into the record at
the session's pinned tag, move to `YEAR`. -/
def get_genres (records : List Record) (sess : Session) (text : String) :
    Option (ConvState × List Record × Session) :=
  match sess.tag with
  | none => none
  | some tag =>
    match records.get? tag with
    | none => none
    | some r =>
      some (.YEAR, records.set tag { r with genres := some (pySplitCommaSpace text) }, sess)

/-- Handler `get_year`: a non-digit input is rejected with a re-prompt and a
self-loop (before the session tag is even read); otherwise the input is
stored verbatim and the conversation moves to `COUNTRY`. -/
def get_year (records : List Record) (sess : Session) (text : String) :
    Option (ConvState × List Record × Session) :=
  if pyIsdigit text = false then some (.YEAR, records, sess)
  else
    match sess.tag with
    | none => none
    | some tag =>
      match records.get? tag with
      | none => none
      | some r => some (.COUNTRY, records.set tag { r with year := some text }, sess)

/-- Handler `get_country`: store the input verbatim and end the conversation (the
handler then renders the record via `generate_text` and sends it). -/
def get_country (records : List Record) (sess : Session) (text : String) :
    Option (ConvState × List Record × Session) :=
  match sess.tag with
  | none => none
  | some tag =>
    match records.get? tag with
    | none => none
    | some r => some (.END, records.set tag { r with country := some text }, sess)

/-! Edit Sub-flow. -/

/-- Handler `process_edits`: record the selected field in the session's
`edit_state` and enter `CAPTURE_EDITS`.  A callback payload matching none
of the six selectors leaves `edit_state` unchanged. -/
def process_edits (sess : Session) (queryData : String) : ConvState × Session :=
  if queryData = "edit_tag" then (.CAPTURE_EDITS, { sess with edit_state := some .edit_tag })
  else if queryData = "edit_title" then (.CAPTURE_EDITS, { sess with edit_state := some .edit_title })
  else if queryData = "edit_band" then (.CAPTURE_EDITS, { sess with edit_state := some .edit_band })
  else if queryData = "edit_year" then (.CAPTURE_EDITS, { sess with edit_state := some .edit_year })
  else if queryData = "edit_county" then (.CAPTURE_EDITS, { sess with edit_state := some .edit_county })
  else if queryData = "edit_genres" then (.CAPTURE_EDITS, { sess with edit_state := some .edit_genres })
  else (.CAPTURE_EDITS, sess)

/-- The dispatch of `capture_edits` on the stored `edit_state`: writing the
new text into the exact sub-field (`genres` re-split on `', '`, `tag`
overwritten with the raw text, all other fields stored as raw text). -/
def applyEdit (r : Record) (field : EditField) (text : String) : Record :=
  match field with
  | .edit_tag => { r with tag := .str text }
  | .edit_title => { r with data := { r.data with title := text } }
  | .edit_band => { r with data := { r.data with artistName := text } }
  | .edit_year => { r with year := some text }
  | .edit_county => { r with country := some text }
  | .edit_genres => { r with genres := some (pySplitCommaSpace text) }

/-- Handler `capture_edits`: write the new value into the record at the session's
pinned tag according to the stored `edit_state`, persist, re-render, and
end the sub-session. -/
def capture_edits (records : List Record) (sess : Session) (text : String) :
    Option (ConvState × List Record × Session) :=
  match sess.tag with
  | none => none
  | some tag =>
    match sess.edit_state with
    | none => none
    | some field =>
      match records.get? tag with
      | none => none
      | some r => some (.END, records.set tag (applyEdit r field text), sess)

/-! Record Store (`get_data` / `store_data`).

The ledger is one JSON object: top-level keys are string user identifiers,
values are arrays of record objects.  `json.dump`/`json.load` belong to the
external standard library, so the backing file is modelled as holding a
JSON value; what the repository itself relies on — that its in-memory
record structure survives the JSON round trip — is modelled by the
encoder/decoder pair below. -/

/-- JSON values, as far as this program's data goes. -/
inductive Json where
  | null
  | str (s : String)
  | num (n : Nat)
  | arr (xs : List Json)
  | obj (fields : List (String × Json))

/-- JSON form of a `tag` value: a number at creation, a string after an
`edit_tag` edit. -/
def TagVal.toJson : TagVal → Json
  | .num n => .num n
  | .str s => .str s

/-- JSON form of the odesli metadata object. -/
def SongData.toJson (d : SongData) : Json :=
  .obj [("title", .str d.title), ("artistName", .str d.artistName),
        ("thumbnailUrl", .str d.thumbnailUrl)]

/-- A key that is present only when its value is. -/
def optField (k : String) : Option Json → List (String × Json)
  | none => []
  | some j => [(k, j)]

/-- JSON form of a record dictionary: `url`, `data` and `tag` always
present, `genres`/`year`/`country` present only once set. -/
def Record.toJson (r : Record) : Json :=
  .obj ([("url", (match r.url with | none => Json.null | some s => Json.str s)),
         ("data", r.data.toJson),
         ("tag", r.tag.toJson)]
        ++ optField "genres" (r.genres.map fun gs => Json.arr (gs.map Json.str))
        ++ optField "year" (r.year.map Json.str)
        ++ optField "country" (r.country.map Json.str))

/-- The string payload of a JSON value, when it is a string. -/
def Json.getStr : Json → Option String
  | .str s => some s
  | _ => none

/-- Reading a `tag` value back. -/
def decodeTag : Json → Option TagVal
  | .num n => some (.num n)
  | .str s => some (.str s)
  | _ => none

/-- Reading an odesli metadata object back. -/
def decodeSongData : Json → Option SongData
  | .obj fs =>
    (List.lookup "title" fs).bind fun tJ =>
      tJ.getStr.bind fun t =>
        (List.lookup "artistName" fs).bind fun aJ =>
          aJ.getStr.bind fun a =>
            (List.lookup "thumbnailUrl" fs).bind fun thJ =>
              thJ.getStr.map fun th =>
                { title := t, artistName := a, thumbnailUrl := th }
  | _ => none

/-- Reading a list of strings back. -/
def decodeStrs : List Json → Option (List String)
  | [] => some []
  | j :: js => (Json.getStr j).bind fun s => (decodeStrs js).map fun ss => s :: ss

/-- Reading a JSON array of strings back. -/
def decodeStrList : Json → Option (List String)
  | .arr xs => decodeStrs xs
  | _ => none

/-- Reading an optional string-valued key: absent is fine, a present
non-string is malformed. -/
def decodeOptStr (fs : List (String × Json)) (k : String) : Option (Option String) :=
  match List.lookup k fs with
  | none => some none
  | some j => j.getStr.map some

/-- Reading a record dictionary back. -/
def Record.fromJson : Json → Option Record
  | .obj fs =>
    (List.lookup "url" fs).bind fun urlJ =>
      (match urlJ with
       | .null => some none
       | .str s => some (some s)
       | _ => none).bind fun url =>
        (List.lookup "data" fs).bind fun dJ =>
          (decodeSongData dJ).bind fun d =>
            (List.lookup "tag" fs).bind fun tJ =>
              (decodeTag tJ).bind fun t =>
                (match List.lookup "genres" fs with
                 | none => some none
                 | some j => (decodeStrList j).map some).bind fun gs =>
                  (decodeOptStr fs "year").bind fun y =>
                    (decodeOptStr fs "country").map fun c =>
                      { url := url, data := d, tag := t,
                        genres := gs, year := y, country := c }
  | _ => none

/-- Traversal of a list under a fallible reader. -/
def mapMOpt (f : α → Option β) : List α → Option (List β)
  | [] => some []
  | a :: as => (f a).bind fun b => (mapMOpt f as).map fun bs => b :: bs

/-- The user ledger: user identifier to list of records, in insertion
order (a Python `dict`). -/
abbrev Ledger := List (String × List Record)

/-- JSON form of one user's record array. -/
def encodeRecords (rs : List Record) : Json :=
  .arr (rs.map Record.toJson)

/-- Reading one user's record array back. -/
def decodeRecords : Json → Option (List Record)
  | .arr xs => mapMOpt Record.fromJson xs
  | _ => none

/-- JSON form of the whole ledger, the value `json.dump` writes. -/
def encodeLedger (L : Ledger) : Json :=
  .obj (L.map fun p => (p.1, encodeRecords p.2))

/-- Reading the whole ledger back, the value `json.load` returns. -/
def decodeLedger : Json → Option Ledger
  | .obj fs => mapMOpt (fun p => (decodeRecords p.2).map fun rs => (p.1, rs)) fs
  | _ => none

/-- The file system, holding at most one JSON document per path. -/
def FS : Type := String → Option Json

/-- Handler `store_data`: serialize the full ledger to the backing file,
overwriting it wholesale (`makedirs` elided). -/
def store_data (data : Ledger) (filename : String) (fs : FS) : FS :=
  fun f => if f = filename then some (encodeLedger data) else fs f

/-- Handler `get_data`: read the persisted ledger; if the file is absent,
create it empty and return the empty ledger.  A malformed document makes
`json.load` raise, modelled by `none`. -/
def get_data (filename : String) (fs : FS) : Option (Ledger × FS) :=
  match fs filename with
  | some j => (decodeLedger j).map fun L => (L, fs)
  | none => some ([], store_data [] filename fs)

/-! Concrete values used to instantiate the theorems below. -/

/-- The tag projection of a record list. -/
def tagList (rs : List Record) : List TagVal :=
  rs.map Record.tag

/-- A fresh session, as at the start of a conversation. -/
def sessNew : Session := {}

/-- Resolved metadata for the happy-path scenario. -/
def sdX : SongData where
  title := "X"
  artistName := "Y"
  thumbnailUrl := "https://img/cover.jpg"

/-- An odesli response whose first entry is tagged `ITUNES`. -/
def lookupX : LookupResult :=
  .success "https://song.link/x" [("ITUNES_ALBUM::123", sdX)]

/-- Happy path, step 1: `/new` then a valid URL that resolves. -/
def happyStep1 : ConvState × List Record × Session :=
  get_link [] sessNew "https://example.com/a" true lookupX

/-- Happy path, step 2: genres input `"rock, jazz"`. -/
def happyStep2 : Option (ConvState × List Record × Session) :=
  get_genres happyStep1.2.1 happyStep1.2.2 "rock, jazz"

/-- Happy path, step 3: year input `"1999"`. -/
def happyStep3 : Option (ConvState × List Record × Session) :=
  happyStep2.bind fun s => get_year s.2.1 s.2.2 "1999"

/-- Happy path, step 4: country input `"USA"`. -/
def happyStep4 : Option (ConvState × List Record × Session) :=
  happyStep3.bind fun s => get_country s.2.1 s.2.2 "USA"

/-- The record the happy path should store. -/
def recX : Record where
  url := some "https://song.link/x"
  data := sdX
  tag := .num 0
  genres := some ["rock", "jazz"]
  year := some "1999"
  country := some "USA"

/-- The session after the happy path pinned tag `0`. -/
def sessX : Session := { tag := some 0 }

/-- A fully populated record for edit-flow instantiations. -/
def rEx : Record where
  url := some "https://song.link/r"
  data := { title := "T", artistName := "A B", thumbnailUrl := "http://th" }
  tag := .num 0
  genres := some ["rock"]
  year := some "1999"
  country := some "USA"

/-- A session inside the edit sub-flow targeting the `tag` field. -/
def sessEditTag : Session := { tag := some 0, edit_state := some .edit_tag }

/-- A session inside the edit sub-flow targeting the `title` field. -/
def sessEditTitle : Session := { tag := some 0, edit_state := some .edit_title }

/-- A session inside the edit sub-flow targeting the `genres` field. -/
def sessEditGenres : Session := { tag := some 0, edit_state := some .edit_genres }

/-! Helper lemmas. -/

/-- Rebuilding a string from its characters is the identity. -/
theorem mk_data (s : String) : String.mk s.data = s := rfl

/-- A separator-free character list splits into itself alone. -/
theorem splitCommaSpace_of_no_sep (l : List Char) (h : hasCommaSpace l = false) :
    splitCommaSpace l = [l] := by
  induction l with
  | nil => rfl
  | cons c1 cs ih =>
    cases cs with
    | nil => rfl
    | cons c2 rest =>
      simp only [hasCommaSpace, Bool.or_eq_false_iff, Bool.and_eq_false_iff,
        decide_eq_false_iff_not] at h
      have hcond : ¬(c1 = ',' ∧ c2 = ' ') := by
        intro hc
        rcases h.1 with h1 | h1 <;> exact h1 (by simp [hc.1, hc.2])
      rw [splitCommaSpace, if_neg hcond, ih h.2]

/-- Splitting a list that is a separator-free chunk, the separator, then a
remainder peels off the chunk. -/
theorem splitCommaSpace_append (a b : List Char) (h : hasCommaSpace a = false) :
    splitCommaSpace (a ++ ',' :: ' ' :: b) = a :: splitCommaSpace b := by
  induction a with
  | nil => simp [splitCommaSpace]
  | cons c1 cs ih =>
    cases cs with
    | nil =>
      have : ¬(c1 = ',' ∧ ',' = ' ') := by simp
      rw [List.cons_append, List.nil_append, splitCommaSpace, if_neg this]
      simp [splitCommaSpace]
    | cons c2 rest =>
      simp only [hasCommaSpace, Bool.or_eq_false_iff, Bool.and_eq_false_iff,
        decide_eq_false_iff_not] at h
      have hcond : ¬(c1 = ',' ∧ c2 = ' ') := by
        intro hc
        rcases h.1 with h1 | h1 <;> exact h1 (by simp [hc.1, hc.2])
      rw [List.cons_append, List.cons_append, splitCommaSpace, if_neg hcond]
      have := ih h.2
      rw [List.cons_append] at this
      rw [this]

/-- Splitting undoes joining for a nonempty list of separator-free chunks. -/
theorem splitCommaSpace_joinSeq (gss : List (List Char)) (hne : gss ≠ [])
    (h : ∀ g ∈ gss, hasCommaSpace g = false) :
    splitCommaSpace (joinSeq [',', ' '] gss) = gss := by
  induction gss with
  | nil => exact absurd rfl hne
  | cons a rest ih =>
    cases rest with
    | nil =>
      rw [joinSeq, splitCommaSpace_of_no_sep a (h a (by simp))]
    | cons b rest2 =>
      rw [joinSeq, List.append_assoc, List.cons_append, List.singleton_append,
        splitCommaSpace_append a _ (h a (by simp)),
        ih (by simp) (fun g hg => h g (List.mem_cons_of_mem a hg))]

/-- Overwriting an entry with one that agrees under `f` leaves the
`f`-image of the list unchanged. -/
theorem map_set_same {α β : Type} (f : α → β) :
    ∀ (l : List α) (t : Nat) (r a : α), l.get? t = some r → f a = f r →
      (l.set t a).map f = l.map f
  | [], t, r, a, h, _ => by simp at h
  | x :: xs, 0, r, a, h, hf => by
    simp only [List.get?] at h
    cases h
    simp [List.set, hf]
  | x :: xs, t + 1, r, a, h, hf => by
    simp only [List.get?] at h
    simp [List.set, map_set_same f xs t r a h hf]

/-- A fallible traversal of an encoded list succeeds elementwise. -/
theorem mapMOpt_map {α β : Type} (f : α → Option β) (g : β → α) (l : List β)
    (h : ∀ b ∈ l, f (g b) = some b) :
    mapMOpt f (l.map g) = some l := by
  induction l with
  | nil => rfl
  | cons b bs ih =>
    simp only [List.map_cons, mapMOpt, h b (by simp)]
    rw [ih fun b hb => h b (List.mem_cons_of_mem _ hb)]
    rfl

/-- Encoded string lists decode back. -/
theorem decodeStrs_map (gs : List String) :
    decodeStrs (gs.map Json.str) = some gs := by
  induction gs with
  | nil => rfl
  | cons s ss ih => simp [decodeStrs, Json.getStr, ih]

/-- A record survives the JSON round trip. -/
theorem Record.fromJson_toJson (r : Record) :
    Record.fromJson (Record.toJson r) = some r := by
  obtain ⟨url, data, tag, genres, year, country⟩ := r
  cases genres with
  | none => cases url <;> cases tag <;> cases year <;> cases country <;> rfl
  | some gs =>
    cases url <;> cases tag <;> cases year <;> cases country <;>
      (change ((decodeStrs (gs.map Json.str)).map some).bind _ = _
       rw [decodeStrs_map]
       rfl)

/-- One user's record array survives the JSON round trip. -/
theorem decodeRecords_encodeRecords (rs : List Record) :
    decodeRecords (encodeRecords rs) = some rs := by
  rw [encodeRecords, decodeRecords, mapMOpt_map _ _ _ fun r _ => r.fromJson_toJson]

/-- The whole ledger survives the JSON round trip. -/
theorem decodeLedger_encodeLedger (L : Ledger) :
    decodeLedger (encodeLedger L) = some L := by
  rw [encodeLedger, decodeLedger, mapMOpt_map]
  intro p _
  rw [decodeRecords_encodeRecords]
  rfl

/-- The scan of `get_song_links` comes up empty exactly when no key is
tagged `ITUNES`. -/
theorem findItunesEntry_eq_none (es : List (String × SongData)) :
    findItunesEntry es = none ↔ ∀ kv ∈ es, platformOf kv.1 ≠ "ITUNES" := by
  induction es with
  | nil => simp [findItunesEntry]
  | cons kd rest ih =>
    obtain ⟨k, d⟩ := kd
    by_cases hk : platformOf k = "ITUNES" <;>
      simp [findItunesEntry, hk, ih]

/-- The entry `get_song_links` returns comes from the response and its key
is tagged `ITUNES`. -/
theorem findItunesEntry_eq_some (es : List (String × SongData)) (d : SongData)
    (h : findItunesEntry es = some d) :
    ∃ k, (k, d) ∈ es ∧ platformOf k = "ITUNES" := by
  induction es with
  | nil => simp [findItunesEntry] at h
  | cons kd rest ih =>
    obtain ⟨k, d'⟩ := kd
    by_cases hk : platformOf k = "ITUNES"
    · simp only [findItunesEntry, if_pos hk, Option.some.injEq] at h
      exact ⟨k, by simp [h], hk⟩
    · simp only [findItunesEntry, if_neg hk] at h
      obtain ⟨k', hk'⟩ := ih h
      exact ⟨k', List.mem_cons_of_mem _ hk'.1, hk'.2⟩

/-! Claim theorems. -/

/-- C2, counterexample: the claim says `resolve(url)` returns `(null, null)`
when the lookup succeeds but no entry's key prefix matches the target
platform; in the code that case returns `(pageUrl, None)`, not
`(None, None)`. -/
theorem resolve_no_entry_counterexample :
    get_song_links (.success "https://page"
        [("SPOTIFY_SONG::x", { title := "t", artistName := "a", thumbnailUrl := "u" })])
      = (some "https://page", none) ∧
    (some "https://page", (none : Option SongData)) ≠ (none, none) :=
  ⟨rfl, by decide⟩

/-- C2 (amended): `resolve(url)` returns `(null, null)` exactly when the
external lookup call fails with a non-success status.  When the lookup
succeeds it always returns the canonical page URL; its second component is
`null` exactly when no entry's key prefix matches `ITUNES`, and otherwise
it is the metadata of an entry whose key prefix matches `ITUNES`. -/
theorem get_song_links_spec :
    (∀ lookup, get_song_links lookup = (none, none) ↔ lookup = LookupResult.httpError) ∧
    (∀ p es, (get_song_links (LookupResult.success p es)).1 = some p) ∧
    (∀ p es, (get_song_links (LookupResult.success p es)).2 = none ↔
      ∀ kv ∈ es, platformOf kv.1 ≠ "ITUNES") ∧
    (∀ p es d, (get_song_links (LookupResult.success p es)).2 = some d →
      ∃ k, (k, d) ∈ es ∧ platformOf k = "ITUNES") := by
  refine ⟨?_, fun p es => rfl, fun p es => findItunesEntry_eq_none es,
    fun p es d h => findItunesEntry_eq_some es d h⟩
  intro lookup
  cases lookup with
  | httpError => simp [get_song_links]
  | success p es => simp [get_song_links]

/-- C2, witness: the amended theorem applied to a failed lookup and to a
successful lookup that has only a non-`ITUNES` entry. -/
theorem get_song_links_spec_witness :
    get_song_links LookupResult.httpError = (none, none) ∧
    (get_song_links (LookupResult.success "p" [("SPOTIFY_SONG::x", sdX)])).2 = none :=
  ⟨(get_song_links_spec.1 LookupResult.httpError).mpr rfl,
   (get_song_links_spec.2.2.1 "p" [("SPOTIFY_SONG::x", sdX)]).mpr (by decide)⟩

/-- C5: saving any ledger to the backing file and then loading it returns
the same ledger (`load(save(L)) == L`). -/
theorem load_after_store (L : Ledger) (filename : String) (fs : FS) :
    get_data filename (store_data L filename fs) = some (L, store_data L filename fs) := by
  unfold get_data store_data
  simp [decodeLedger_encodeLedger]

/-- C6, counterexample: the empty genre list vacuously satisfies
"no element contains the substring `', '`", yet joining it gives the empty
string, which re-splits to `[""]`, not `[]`. -/
theorem genres_empty_counterexample :
    (∀ g ∈ ([] : List String), hasCommaSpaceStr g = false) ∧
    pySplitCommaSpace (joinCommaSpace []) = [""] ∧
    ([""] : List String) ≠ [] :=
  ⟨by simp, by decide, by decide⟩

/-- C6 (amended): for every NONEMPTY genre list in which no element
contains the substring `", "`, joining with the literal separator `", "`
and re-splitting on it reproduces the original list. -/
theorem genres_split_join_roundtrip (gs : List String) (hne : gs ≠ [])
    (h : ∀ g ∈ gs, hasCommaSpaceStr g = false) :
    pySplitCommaSpace (joinCommaSpace gs) = gs := by
  unfold pySplitCommaSpace joinCommaSpace
  have hne2 : gs.map String.data ≠ [] := by simpa using hne
  have h2 : ∀ g ∈ gs.map String.data, hasCommaSpace g = false := by
    intro g hg
    obtain ⟨s, hs, rfl⟩ := List.mem_map.mp hg
    exact h s hs
  rw [show (String.mk (joinSeq [',', ' '] (gs.map String.data))).data
      = joinSeq [',', ' '] (gs.map String.data) from rfl]
  rw [splitCommaSpace_joinSeq _ hne2 h2, List.map_map,
    show String.mk ∘ String.data = id from funext fun s => rfl, List.map_id]

/-- C6, witness: the amended round trip at `["rock", "jazz"]`. -/
theorem genres_split_join_roundtrip_witness :
    pySplitCommaSpace (joinCommaSpace ["rock", "jazz"]) = ["rock", "jazz"] :=
  genres_split_join_roundtrip ["rock", "jazz"] (by decide) (by decide)

/-- C7: in the year-collection state an all-digit input is stored verbatim
and the conversation moves to country collection, while a non-digit input
is rejected: the record list is untouched and the session stays in the
year-collection state. -/
theorem year_validation (records : List Record) (sess : Session) (t : Nat) (r : Record) :
    (∀ text, pyIsdigit text = false →
      get_year records sess text = some (ConvState.YEAR, records, sess)) ∧
    (∀ text, pyIsdigit text = true → sess.tag = some t → records.get? t = some r →
      get_year records sess text =
        some (ConvState.COUNTRY, records.set t { r with year := some text }, sess)) := by
  constructor
  · intro text h
    simp [get_year, h]
  · intro text h htag hget
    rw [List.get?_eq_getElem?] at hget
    simp [get_year, h, htag, hget, Option.bind]

/-- C7, witness: `"abc"` is rejected with a self-loop, `"1998"` is stored
verbatim. -/
theorem year_validation_witness :
    pyIsdigit "abc" = false ∧
    get_year [rEx] sessX "abc" = some (ConvState.YEAR, [rEx], sessX) ∧
    pyIsdigit "1998" = true ∧
    get_year [rEx] sessX "1998" =
      some (ConvState.COUNTRY, [{ rEx with year := some "1998" }], sessX) :=
  ⟨by decide, (year_validation [rEx] sessX 0 rEx).1 "abc" (by decide), by decide,
   (year_validation [rEx] sessX 0 rEx).2 "1998" (by decide) rfl rfl⟩

/-- C8, counterexample: the claim says one deterministic fallback policy
(placeholder record, proceed to genre collection) applies regardless of
which way resolution failed; in the code a successful lookup with no
`ITUNES` entry is instead rejected: no record is created and the session
stays in the link state. -/
theorem fallback_policy_counterexample :
    get_link [] sessNew "http://x" true (LookupResult.success "p" []) =
      (ConvState.LINK, [], sessNew) ∧
    ConvState.LINK ≠ ConvState.GENRES :=
  ⟨rfl, by decide⟩

/-- C8 (amended): for a syntactically valid but unresolvable URL the code
follows two distinct deterministic policies: on a non-success lookup status
it creates a placeholder record (sentinel title/artist, URL kept as the
user-entered text) and proceeds to genre collection; on a successful lookup
with no `ITUNES` entry it rejects the link with a re-prompt, creating no
record and staying in the link state. -/
theorem get_link_fallback (records : List Record) (sess : Session) (text : String) :
    get_link records sess text true LookupResult.httpError =
      (ConvState.GENRES,
       records ++ [{ url := some text, data := placeholderData,
                     tag := TagVal.num records.length }],
       { sess with tag := some records.length }) ∧
    (∀ p es, findItunesEntry es = none →
      get_link records sess text true (LookupResult.success p es) =
        (ConvState.LINK, records, sess)) := by
  constructor
  · rfl
  · intro p es h
    simp [get_link, get_song_links, h]

/-- C8, witness: the amended policy pair at concrete inputs. -/
theorem get_link_fallback_witness :
    get_link [] sessNew "http://x" true (LookupResult.success "p" []) =
      (ConvState.LINK, [], sessNew) :=
  (get_link_fallback [] sessNew "http://x").2 "p" [] rfl

/-- C9: editing the `genres` field of an existing record replaces only
that record's genre list (re-split on `", "`), leaving its tag, title,
artist name, year and country unchanged, and leaving every other record
untouched (the update is a point update at the pinned tag). -/
theorem edit_genres_frame (records : List Record) (sess : Session) (text : String)
    (t : Nat) (r : Record) (htag : sess.tag = some t)
    (hfield : sess.edit_state = some EditField.edit_genres)
    (hget : records.get? t = some r) :
    capture_edits records sess text =
      some (ConvState.END,
        records.set t { r with genres := some (pySplitCommaSpace text) }, sess) ∧
    (applyEdit r EditField.edit_genres text).tag = r.tag ∧
    (applyEdit r EditField.edit_genres text).data.title = r.data.title ∧
    (applyEdit r EditField.edit_genres text).data.artistName = r.data.artistName ∧
    (applyEdit r EditField.edit_genres text).year = r.year ∧
    (applyEdit r EditField.edit_genres text).country = r.country ∧
    (records.set t (applyEdit r EditField.edit_genres text)).length = records.length := by
  refine ⟨?_, rfl, rfl, rfl, rfl, rfl, by simp⟩
  rw [List.get?_eq_getElem?] at hget
  simp [capture_edits, htag, hfield, hget, Option.bind, applyEdit]

/-- C9, witness: a concrete genres edit. -/
theorem edit_genres_frame_witness :
    capture_edits [rEx] sessEditGenres "metal, pop" =
      some (ConvState.END, [{ rEx with genres := some ["metal", "pop"] }], sessEditGenres) ∧
    ({ rEx with genres := some ["metal", "pop"] } : Record).tag = rEx.tag :=
  ⟨(edit_genres_frame [rEx] sessEditGenres "metal, pop" 0 rEx rfl rfl rfl).1,
   (edit_genres_frame [rEx] sessEditGenres "metal, pop" 0 rEx rfl rfl rfl).2.1⟩

/-- C10: rendering is defined only for records that carry a genre list —
`generate_text` fails (Python `TypeError`) on every record whose `genres`
key is absent, and the record appended at link capture (before genre
capture) has no `genres` key, so a record left in that state cannot be
rendered. -/
theorem render_requires_genres :
    (∀ r : Record, r.genres = none → generate_text r = none) ∧
    (∀ records sess text valid lookup,
      (get_link records sess text valid lookup).1 = ConvState.GENRES →
      ((get_link records sess text valid lookup).2.1.get? records.length).map Record.genres
        = some none) := by
  constructor
  · intro r h
    simp [generate_text, h]
  · intro records sess text valid lookup h
    cases valid with
    | false => simp [get_link] at h
    | true =>
      cases lookup with
      | httpError =>
        simp [get_link, get_song_links, List.getElem?_concat_length, List.get?_eq_getElem?]
      | success p es =>
        cases hfind : findItunesEntry es with
        | none => simp [get_link, get_song_links, hfind] at h
        | some d => simp [get_link, get_song_links, hfind, List.getElem?_concat_length, List.get?_eq_getElem?]

/-- C10, witness: the placeholder record just after link capture has no
genre list and cannot be rendered. -/
theorem render_requires_genres_witness :
    generate_text { url := some "u", data := placeholderData, tag := TagVal.num 0 } = none ∧
    ((get_link [] sessNew "http://x" true LookupResult.httpError).2.1.get? 0).map Record.genres
      = some none :=
  ⟨render_requires_genres.1 { url := some "u", data := placeholderData, tag := TagVal.num 0 } rfl,
   render_requires_genres.2 [] sessNew "http://x" true LookupResult.httpError rfl⟩

/-- C1, counterexample: the edit sub-flow's `edit_tag` transition
overwrites the record's tag field with the raw message text, so the tag
assigned at creation time does not survive every operation. -/
theorem tag_edit_counterexample :
    capture_edits [rEx] sessEditTag "99" =
      some (ConvState.END, [{ rEx with tag := TagVal.str "99" }], sessEditTag) ∧
    ({ rEx with tag := TagVal.str "99" } : Record).tag ≠ rEx.tag :=
  ⟨rfl, by decide⟩

/-- C1 (amended): the tag field of every stored record is preserved by
every conversation step (`get_link` only appends, `get_genres`, `get_year`,
`get_country` touch other fields) and by every edit sub-flow transition
except the explicit `edit_tag` field edit. -/
theorem tags_preserved_except_tag_edit (records : List Record) (sess : Session)
    (text : String) (valid : Bool) (lookup : LookupResult) :
    (tagList (get_link records sess text valid lookup).2.1).take records.length
      = tagList records ∧
    (∀ out, get_genres records sess text = some out → tagList out.2.1 = tagList records) ∧
    (∀ out, get_year records sess text = some out → tagList out.2.1 = tagList records) ∧
    (∀ out, get_country records sess text = some out → tagList out.2.1 = tagList records) ∧
    (sess.edit_state ≠ some EditField.edit_tag →
      ∀ out, capture_edits records sess text = some out → tagList out.2.1 = tagList records) := by
  have htake : (tagList records).take records.length = tagList records := by
    rw [tagList, ← List.length_map records Record.tag, List.take_length]
  have happ : ∀ rec : Record,
      (tagList (records ++ [rec])).take records.length = tagList records := by
    intro rec
    rw [tagList, List.map_append, ← List.length_map records Record.tag, List.take_left,
      tagList]
  have hset : ∀ (t : Nat) (r a : Record), records.get? t = some r → a.tag = r.tag →
      tagList (records.set t a) = tagList records := by
    intro t r a hget ha
    rw [tagList, tagList]
    exact map_set_same Record.tag records t r a hget ha
  refine ⟨?_, ?_, ?_, ?_, ?_⟩
  · cases valid with
    | false => simpa [get_link] using htake
    | true =>
      cases lookup with
      | httpError => simpa [get_link, get_song_links] using happ _
      | success p es =>
        cases hfind : findItunesEntry es with
        | none => simpa [get_link, get_song_links, hfind] using htake
        | some d => simpa [get_link, get_song_links, hfind] using happ _
  · intro out h
    cases htag : sess.tag with
    | none => simp [get_genres, htag] at h
    | some t =>
      cases hget : records.get? t with
      | none =>
        rw [List.get?_eq_getElem?] at hget
        simp [get_genres, htag, hget] at h
      | some r =>
        simp only [get_genres, htag, hget, Option.some.injEq] at h
        rw [← h]
        exact hset t r _ hget rfl
  · intro out h
    cases hd : pyIsdigit text with
    | false =>
      simp only [get_year, hd, Option.some.injEq, if_pos] at h
      rw [← h]
    | true =>
      cases htag : sess.tag with
      | none => simp [get_year, hd, htag] at h
      | some t =>
        cases hget : records.get? t with
        | none =>
          rw [List.get?_eq_getElem?] at hget
          simp [get_year, hd, htag, hget] at h
        | some r =>
          simp only [get_year, hd, htag, hget, Option.some.injEq,
            Bool.true_eq_false, if_false] at h
          rw [← h]
          exact hset t r _ hget rfl
  · intro out h
    cases htag : sess.tag with
    | none => simp [get_country, htag] at h
    | some t =>
      cases hget : records.get? t with
      | none =>
        rw [List.get?_eq_getElem?] at hget
        simp [get_country, htag, hget] at h
      | some r =>
        simp only [get_country, htag, hget, Option.some.injEq] at h
        rw [← h]
        exact hset t r _ hget rfl
  · intro hne out h
    cases htag : sess.tag with
    | none => simp [capture_edits, htag] at h
    | some t =>
      cases hfield : sess.edit_state with
      | none => simp [capture_edits, htag, hfield] at h
      | some f =>
        cases hget : records.get? t with
        | none =>
          rw [List.get?_eq_getElem?] at hget
          simp [capture_edits, htag, hfield, hget] at h
        | some r =>
          simp only [capture_edits, htag, hfield, hget, Option.some.injEq] at h
          rw [← h]
          refine hset t r _ hget ?_
          cases f with
          | edit_tag => exact absurd (hfield ▸ rfl) hne
          | edit_title => rfl
          | edit_band => rfl
          | edit_year => rfl
          | edit_county => rfl
          | edit_genres => rfl

/-- C1, witness: a title edit leaves the tag projection unchanged. -/
theorem tags_preserved_witness :
    sessEditTitle.edit_state ≠ some EditField.edit_tag ∧
    tagList [{ rEx with data := { rEx.data with title := "T2" } }] = tagList [rEx] :=
  ⟨by decide,
   (tags_preserved_except_tag_edit [rEx] sessEditTitle "T2" true
       LookupResult.httpError).2.2.2.2 (by decide)
     (ConvState.END, [{ rEx with data := { rEx.data with title := "T2" } }], sessEditTitle)
     rfl⟩

/-- C3: whenever `get_link` accepts a URL (transition to genre collection),
the appended record's tag equals the pre-insertion length of the user's
record list and that tag is pinned into the session; and every subsequent
state (`get_genres`, `get_year`, `get_country` and `capture_edits`) indexes
the user's list with the session's pinned tag `t` — a point update at `t`
for arbitrary lists, never a recomputation from the list length. -/
theorem pinned_tag_spec (records : List Record) (sess : Session) (text : String)
    (valid : Bool) (lookup : LookupResult) :
    ((get_link records sess text valid lookup).1 = ConvState.GENRES →
      tagList (get_link records sess text valid lookup).2.1
        = tagList records ++ [TagVal.num records.length] ∧
      (get_link records sess text valid lookup).2.2.tag = some records.length) ∧
    (∀ t r, sess.tag = some t → records.get? t = some r →
      get_genres records sess text =
        some (ConvState.YEAR,
          records.set t { r with genres := some (pySplitCommaSpace text) }, sess)) ∧
    (∀ t r, sess.tag = some t → records.get? t = some r → pyIsdigit text = true →
      get_year records sess text =
        some (ConvState.COUNTRY, records.set t { r with year := some text }, sess)) ∧
    (∀ t r, sess.tag = some t → records.get? t = some r →
      get_country records sess text =
        some (ConvState.END, records.set t { r with country := some text }, sess)) ∧
    (∀ t r f, sess.tag = some t → sess.edit_state = some f → records.get? t = some r →
      capture_edits records sess text =
        some (ConvState.END, records.set t (applyEdit r f text), sess)) := by
  refine ⟨?_, ?_, ?_, ?_, ?_⟩
  · intro h
    cases valid with
    | false => simp [get_link] at h
    | true =>
      cases lookup with
      | httpError =>
        constructor
        · simp [get_link, get_song_links, tagList]
        · rfl
      | success p es =>
        cases hfind : findItunesEntry es with
        | none => simp [get_link, get_song_links, hfind] at h
        | some d =>
          constructor
          · simp [get_link, get_song_links, hfind, tagList]
          · simp [get_link, get_song_links, hfind]
  · intro t r htag hget
    rw [List.get?_eq_getElem?] at hget
    simp [get_genres, htag, hget]
  · intro t r htag hget hd
    rw [List.get?_eq_getElem?] at hget
    simp [get_year, htag, hget, hd]
  · intro t r htag hget
    rw [List.get?_eq_getElem?] at hget
    simp [get_country, htag, hget]
  · intro t r f htag hfield hget
    rw [List.get?_eq_getElem?] at hget
    simp [capture_edits, htag, hfield, hget]

/-- C3, witness: the happy-path link capture pins tag `0` and the genres
step indexes with it. -/
theorem pinned_tag_witness :
    tagList (get_link [] sessNew "https://example.com/a" true lookupX).2.1
      = tagList [] ++ [TagVal.num 0] ∧
    (get_link [] sessNew "https://example.com/a" true lookupX).2.2.tag = some 0 ∧
    get_genres [recX] sessX "rock, jazz" =
      some (ConvState.YEAR,
        [{ recX with genres := some ["rock", "jazz"] }], sessX) :=
  ⟨((pinned_tag_spec [] sessNew "https://example.com/a" true lookupX).1 rfl).1,
   ((pinned_tag_spec [] sessNew "https://example.com/a" true lookupX).1 rfl).2,
   (pinned_tag_spec [recX] sessX "rock, jazz" true lookupX).2.1 0 recX rfl rfl⟩

/-- C4: the full happy path for a fresh user — `/new`, a valid URL
resolving to `{title: "X", artist: "Y", thumbnail: url}`, genres
`"rock, jazz"`, year `"1999"`, country `"USA"` — stores exactly the record
`recX` (tag 0, resolved canonical URL, resolved metadata, genres
`["rock", "jazz"]`, year `"1999"`, country `"USA"`), and the rendered
caption contains the hashtag line `#Y #1990s #USA #rock #jazz`. -/
theorem happy_path_scenario :
    new_object = ConvState.LINK ∧
    happyStep1.1 = ConvState.GENRES ∧
    happyStep4 = some (ConvState.END, [recX], sessX) ∧
    generate_text recX = some
      ("<b>#0</b>\n<b>Artist:</b> Y\n<b>Album:</b> X\n<b>Year:</b> 1999\n<b>Genre:</b> rock • jazz\n<b>Country:</b> USA\n<b>Link:</b> https://song.link/x\n\n<i>"
        ++ "#Y #1990s #USA #rock #jazz" ++ "</i>\n    ") :=
  ⟨rfl, rfl, rfl, rfl⟩

end LechaAlbumsBot
